import Mathlib

/-!
Shallow embedding of the simulation-and-analysis core of the bridge
simulator (src/app.py) over exact rationals: the Euler integrator
`simulate_bridge`, the metrics extractor `get_metrics`, the control-cost
aggregate `u_cost`, the qualitative feedback classifier
`holmes_feedback`, and the pros/cons pass-fail report.
-/

namespace Bridge

/-- One pass of the body of the integration loop of `simulate_bridge`
(src/app.py lines 106-110), acting on the pair (x[i], v[i]) and
returning (x[i+1], v[i+1]):
u = Kp * (x_target - x); a = (-c*v - k*x + u) / m;
v' = v + a*dt; x' = x + v*dt (pre-update velocity). -/
def eulerStep (m c k Kp x_target dt : ℚ) (s : ℚ × ℚ) : ℚ × ℚ :=
  let x := s.1
  let v := s.2
  let u := Kp * (x_target - x)
  let a := (-c * v - k * x + u) / m
  (x + v * dt, v + a * dt)

/-- The state (x[i], v[i]) after i iterations of the loop of
`simulate_bridge`, starting from the zero-initialised arrays
(x[0] = 0, v[0] = 0). -/
def simState (m c k Kp x_target dt : ℚ) : ℕ → ℚ × ℚ
  | 0 => (0, 0)
  | i + 1 => eulerStep m c k Kp x_target dt (simState m c k Kp x_target dt i)

/-- Position x[i] of the simulation. -/
def xval (m c k Kp x_target dt : ℚ) (i : ℕ) : ℚ :=
  (simState m c k Kp x_target dt i).1

/-- Velocity v[i] of the simulation (internal state, not returned). -/
def vval (m c k Kp x_target dt : ℚ) (i : ℕ) : ℚ :=
  (simState m c k Kp x_target dt i).2

/-- Control input u[i] of a simulation with n samples: the loop writes
u[i] = Kp * (x_target - x[i]) only for i in range(n - 1); the array is
created by np.zeros, so the trailing entry (and any index outside the
loop range) keeps its initial value 0. -/
def uval (m c k Kp x_target dt : ℚ) (n i : ℕ) : ℚ :=
  if i < n - 1 then Kp * (x_target - xval m c k Kp x_target dt i) else 0

/-- Number of samples n_steps = int(t_max / dt) (src/app.py line 99);
for the nonnegative quotients of interest Python int() is the floor. -/
def n_steps (t_max dt : ℚ) : ℕ :=
  (⌊t_max / dt⌋).toNat

/-- The time grid np.linspace(0, t_max, n) (src/app.py line 100):
n evenly spaced samples from 0 to t_max inclusive, t[i] = i*t_max/(n-1);
for n = 1 numpy returns the single sample 0 (the formula also yields 0
under the division-by-zero convention of ℚ). -/
def linspace (t_max : ℚ) (n : ℕ) : List ℚ :=
  (List.range n).map (fun i : ℕ => (i : ℚ) * t_max / ((n : ℚ) - 1))

/-- The simulator `simulate_bridge(m, c, k, Kp, x_target, t_max=15.0,
dt=0.01)` of src/app.py lines 98-112, returning the triple (t, x, u). -/
def simulate_bridge (m c k Kp x_target : ℚ) (t_max : ℚ := 15)
    (dt : ℚ := 1 / 100) : List ℚ × List ℚ × List ℚ :=
  let n := n_steps t_max dt
  (linspace t_max n,
   (List.range n).map (fun i => xval m c k Kp x_target dt i),
   (List.range n).map (fun i => uval m c k Kp x_target dt n i))

/-- The maximum np.max over a sequence (src/app.py line 121); numpy raises on an
empty array, and every use in the claims is on a nonempty trajectory,
so the empty case carries a junk value 0. -/
def npMax : List ℚ → ℚ
  | [] => 0
  | a :: rest => rest.foldl max a

/-- The backward settling-time scan of `get_metrics` (src/app.py lines
124-128): for i in range(len(x)-1, 0, -1), the first index i (largest,
counting down, never reaching index 0) with |x[i] - target| > tol gives
settling_time = t[i]; if the loop finishes without a break the initial
value t[-1] stands. The fuel argument is the index currently examined;
the loop starts it at len(x) - 1. -/
def scanBack (x t : List ℚ) (target tol : ℚ) : ℕ → ℚ
  | 0 => t.getLastD 0
  | i + 1 =>
    if tol < |x.getD (i + 1) 0 - target| then t.getD (i + 1) 0
    else scanBack x t target tol i

/-- The metrics analyzer `get_metrics(x_arr, t_arr, target)` of
src/app.py lines 120-129, returning (overshoot, settling_time). -/
def get_metrics (x_arr t_arr : List ℚ) (target : ℚ) : ℚ × ℚ :=
  let max_val := npMax x_arr
  let overshoot := max 0 ((max_val - target) / target) * 100
  let tol := 5 / 100 * target
  (overshoot, scanBack x_arr t_arr target tol (x_arr.length - 1))

/-- The cost aggregate u_cost = np.sum(np.abs(u)) * 0.1
(src/app.py line 133). -/
def u_cost (u : List ℚ) : ℚ :=
  (u.map (fun a => |a|)).sum * (1 / 10)

/-- Severity tag of a feedback entry (the "type" field of the
dictionaries appended to holmes_feedback in src/app.py). -/
inductive Severity
  | error
  | warning
  | success
deriving DecidableEq

/-- The four feedback entries the script can append (src/app.py lines
140-176), identified by their titles; icon and message text are
presentation only. -/
inductive Finding
  | turbulence
  | carStuck
  | budgetOverload
  | elegant
deriving DecidableEq

/-- Severity ("type") of each feedback entry as written in src/app.py. -/
def Finding.sev : Finding → Severity
  | .turbulence => .error
  | .carStuck => .warning
  | .budgetOverload => .warning
  | .elegant => .success

/-- The feedback list built by the straight-line classifier of
src/app.py lines 136-176: overshoot > 30 appends the turbulence entry
(error), elif settling > 10 appends the car entry (warning);
cost > 500 independently appends the budget entry (warning); if the
list is still empty and overshoot < 15 the elegant entry (success) is
appended. -/
def holmes_feedback (os ts cost : ℚ) : List Finding :=
  let ab : List Finding :=
    if os > 30 then [.turbulence]
    else if ts > 10 then [.carStuck]
    else []
  let abc := ab ++ (if cost > 500 then [.budgetOverload] else [])
  if abc = [] ∧ os < 15 then abc ++ [.elegant] else abc

/-- Verdict lines of the case report (src/app.py lines 223-241),
identified by their lead phrases; the free text is presentation only. -/
inductive Verdict
  | lowOscillation
  | highRisk
  | quickResponse
  | sluggishResponse
  | economic
  | expensive
deriving DecidableEq

/-- The pros/cons pass-fail report of src/app.py lines 223-241: each of
the three metrics appends exactly one line, to pros when favorable
(overshoot < 10, settling < 5, cost < 300) and to cons otherwise. -/
def pros_cons (os ts cost : ℚ) : List Verdict × List Verdict :=
  let p1 : List Verdict := if os < 10 then [.lowOscillation] else []
  let c1 : List Verdict := if os < 10 then [] else [.highRisk]
  let p2 := p1 ++ (if ts < 5 then [.quickResponse] else [])
  let c2 := c1 ++ (if ts < 5 then [] else [.sluggishResponse])
  let p3 := p2 ++ (if cost < 300 then [.economic] else [])
  let c3 := c2 ++ (if cost < 300 then [] else [.expensive])
  (p3, c3)

/-- Reading an index below n out of a mapped range list gives the mapped
value. -/
lemma getD_map_range (f : ℕ → ℚ) {n i : ℕ} (h : i < n) :
    ((List.range n).map f).getD i 0 = f i := by
  rw [List.getD_eq_getElem?_getD, List.getElem?_map, List.getElem?_range h]
  rfl

/-- Reading an index at or past the length gives the default 0. -/
lemma getD_of_length_le {l : List ℚ} {i : ℕ} (h : l.length ≤ i) :
    l.getD i 0 = 0 := by
  simp [List.getD_eq_getElem?_getD, List.getElem?_eq_none h]

/-- The last-element read t[-1] of a nonempty list is an element. -/
lemma getLastD_mem (t : List ℚ) (h : t ≠ []) : t.getLastD 0 ∈ t := by
  rw [List.getLastD_eq_getLast?, List.getLast?_eq_getLast t h, Option.getD_some]
  exact List.getLast_mem h

/-- An in-range getD read of a list is an element. -/
lemma getD_mem (t : List ℚ) (i : ℕ) (h : i < t.length) : t.getD i 0 ∈ t := by
  rw [List.getD_eq_getElem t 0 h]
  exact List.getElem_mem h

/-- With a positive step strictly below the horizon, int(t_max/dt) is at
least 1. -/
lemma one_le_n_steps {t_max dt : ℚ} (hdt0 : 0 < dt) (hdt : dt < t_max) :
    1 ≤ n_steps t_max dt := by
  have h1 : (1 : ℚ) < t_max / dt := (one_lt_div hdt0).mpr hdt
  have h2 : (1 : ℤ) ≤ ⌊t_max / dt⌋ := Int.le_floor.mpr (by push_cast; linarith)
  unfold n_steps
  omega

/-- With a step at or above the positive horizon, int(t_max/dt) is 0 or
1. -/
lemma n_steps_le_one {t_max dt : ℚ} (ht : 0 < t_max) (hdt : t_max ≤ dt) :
    n_steps t_max dt ≤ 1 := by
  have hdt0 : 0 < dt := lt_of_lt_of_le ht hdt
  have h1 : t_max / dt ≤ 1 := (div_le_one hdt0).mpr hdt
  have h2 : ⌊t_max / dt⌋ ≤ 1 := by
    calc ⌊t_max / dt⌋ ≤ ⌊(1 : ℚ)⌋ := Int.floor_le_floor h1
    _ = 1 := Int.floor_one
  unfold n_steps
  omega

/-- The time-grid component of the simulator output. -/
lemma simulate_fst (m c k Kp x_target t_max dt : ℚ) :
    (simulate_bridge m c k Kp x_target t_max dt).1 =
      linspace t_max (n_steps t_max dt) := rfl

/-- Reading the position component of the simulator output at an
in-range index gives xval. -/
lemma simulate_x_getD (m c k Kp x_target t_max dt : ℚ) {i : ℕ}
    (h : i < n_steps t_max dt) :
    (simulate_bridge m c k Kp x_target t_max dt).2.1.getD i 0 =
      xval m c k Kp x_target dt i :=
  getD_map_range _ h

/-- Reading the control component of the simulator output at an
in-range index gives uval. -/
lemma simulate_u_getD (m c k Kp x_target t_max dt : ℚ) {i : ℕ}
    (h : i < n_steps t_max dt) :
    (simulate_bridge m c k Kp x_target t_max dt).2.2.getD i 0 =
      uval m c k Kp x_target dt (n_steps t_max dt) i :=
  getD_map_range _ h

/-- If no index from 1 up to the fuel bound exceeds the tolerance, the
backward scan returns the initial value t[-1]. -/
lemma scanBack_all_within (x t : List ℚ) (target tol : ℚ) (f : ℕ)
    (h : ∀ i, 1 ≤ i → i ≤ f → ¬ tol < |x.getD i 0 - target|) :
    scanBack x t target tol f = t.getLastD 0 := by
  induction f with
  | zero => rfl
  | succ i ih =>
    rw [scanBack, if_neg (h (i + 1) (by omega) le_rfl)]
    exact ih fun j hj hjf => h j hj (by omega)

/-- If index i (with 1 ≤ i ≤ fuel) exceeds the tolerance and no larger
index up to the fuel bound does, the backward scan stops at i and
returns t[i]. -/
lemma scanBack_found (x t : List ℚ) (target tol : ℚ) (f i : ℕ)
    (h1 : 1 ≤ i) (hif : i ≤ f)
    (hi : tol < |x.getD i 0 - target|)
    (habove : ∀ j, i < j → j ≤ f → ¬ tol < |x.getD j 0 - target|) :
    scanBack x t target tol f = t.getD i 0 := by
  induction f with
  | zero => omega
  | succ fj ih =>
    rw [scanBack]
    by_cases hc : tol < |x.getD (fj + 1) 0 - target|
    · rw [if_pos hc]
      have hieq : i = fj + 1 := by
        by_contra hne
        exact habove (fj + 1) (by omega) le_rfl hc
      rw [hieq]
    · rw [if_neg hc]
      have hif' : i ≤ fj := by
        rcases Nat.lt_or_ge i (fj + 1) with hlt | hge
        · omega
        · have : i = fj + 1 := by omega
          rw [this] at hi
          exact absurd hi hc
      exact ih hif' fun j hj hjf => habove j hj (by omega)

/-- The backward scan always returns an element of the time list when
the fuel stays in range. -/
lemma scanBack_mem (x t : List ℚ) (target tol : ℚ) (f : ℕ)
    (hne : t ≠ []) (hf : f < t.length) :
    scanBack x t target tol f ∈ t := by
  induction f with
  | zero => exact getLastD_mem t hne
  | succ i ih =>
    rw [scanBack]
    by_cases hc : tol < |x.getD (i + 1) 0 - target|
    · rw [if_pos hc]
      exact getD_mem t (i + 1) hf
    · rw [if_neg hc]
      exact ih (by omega)

/-- Replacing one entry of a list by one of at least the same magnitude
does not decrease the sum of absolute values. -/
lemma absSum_set_mono : ∀ (u : List ℚ) (i : ℕ) (v : ℚ), i < u.length →
    |u.getD i 0| ≤ |v| →
    (u.map (fun a => |a|)).sum ≤ ((u.set i v).map (fun a => |a|)).sum
  | [], i, v, h, _ => absurd h (by simp)
  | a :: rest, 0, v, _, hle => by
    simp only [List.set, List.map, List.sum_cons]
    have ha : |a| ≤ |v| := by simpa using hle
    linarith
  | a :: rest, i + 1, v, h, hle => by
    simp only [List.set, List.map, List.sum_cons]
    have hrec := absSum_set_mono rest i v (by simpa using h) (by simpa using hle)
    linarith

/-- With zero gain the loop state stays pinned at the origin: no
forcing term remains. -/
lemma simState_zero_gain (m c k x_target dt : ℚ) (i : ℕ) :
    simState m c k 0 x_target dt i = (0, 0) := by
  induction i with
  | zero => rfl
  | succ j ih =>
    rw [simState, ih]
    simp [eulerStep]

/-- Claim C1: for valid inputs (m>0, c≥0, k>0, Kp≥0, t_max>0,
0<dt<t_max) the simulator returns three sequences of equal length
n = floor(t_max/dt), starting at rest (x[0]=0, v[0]=0), computed by the
exact explicit-Euler recurrence u[i] = Kp*(x_target - x[i]),
a = (-c*v[i] - k*x[i] + u[i])/m, v[i+1] = v[i] + a*dt, and
x[i+1] = x[i] + v[i]*dt with the pre-update velocity; the control array
is zero-initialised so the never-assigned trailing entry u[n-1] is 0. -/
theorem C1_simulate_euler_recurrence (m c k Kp x_target t_max dt : ℚ)
    (hm : 0 < m) (hc : 0 ≤ c) (hk : 0 < k) (hKp : 0 ≤ Kp)
    (ht : 0 < t_max) (hdt0 : 0 < dt) (hdt : dt < t_max) :
    (simulate_bridge m c k Kp x_target t_max dt).1.length = n_steps t_max dt ∧
    (simulate_bridge m c k Kp x_target t_max dt).2.1.length = n_steps t_max dt ∧
    (simulate_bridge m c k Kp x_target t_max dt).2.2.length = n_steps t_max dt ∧
    (simulate_bridge m c k Kp x_target t_max dt).2.1.getD 0 0 = 0 ∧
    vval m c k Kp x_target dt 0 = 0 ∧
    (∀ i, i + 1 < n_steps t_max dt →
      (simulate_bridge m c k Kp x_target t_max dt).2.2.getD i 0 =
        Kp * (x_target -
          (simulate_bridge m c k Kp x_target t_max dt).2.1.getD i 0) ∧
      vval m c k Kp x_target dt (i + 1) =
        vval m c k Kp x_target dt i +
          ((-c * vval m c k Kp x_target dt i
              - k * (simulate_bridge m c k Kp x_target t_max dt).2.1.getD i 0
              + (simulate_bridge m c k Kp x_target t_max dt).2.2.getD i 0)
            / m) * dt ∧
      (simulate_bridge m c k Kp x_target t_max dt).2.1.getD (i + 1) 0 =
        (simulate_bridge m c k Kp x_target t_max dt).2.1.getD i 0 +
          vval m c k Kp x_target dt i * dt) ∧
    (simulate_bridge m c k Kp x_target t_max dt).2.2.getD
      (n_steps t_max dt - 1) 0 = 0 := by
  have hn1 : 1 ≤ n_steps t_max dt := one_le_n_steps hdt0 hdt
  refine ⟨?_, ?_, ?_, ?_, rfl, ?_, ?_⟩
  · simp [simulate_bridge, linspace]
  · simp [simulate_bridge]
  · simp [simulate_bridge]
  · rw [simulate_x_getD m c k Kp x_target t_max dt (by omega)]
    rfl
  · intro i hi
    have hilt : i < n_steps t_max dt := by omega
    refine ⟨?_, ?_, ?_⟩
    · rw [simulate_u_getD m c k Kp x_target t_max dt hilt,
          simulate_x_getD m c k Kp x_target t_max dt hilt]
      unfold uval
      rw [if_pos (show i < n_steps t_max dt - 1 by omega)]
    · rw [simulate_u_getD m c k Kp x_target t_max dt hilt,
          simulate_x_getD m c k Kp x_target t_max dt hilt]
      unfold uval
      rw [if_pos (show i < n_steps t_max dt - 1 by omega)]
      rfl
    · rw [simulate_x_getD m c k Kp x_target t_max dt hi,
          simulate_x_getD m c k Kp x_target t_max dt hilt]
      rfl
  · rw [simulate_u_getD m c k Kp x_target t_max dt
        (show n_steps t_max dt - 1 < n_steps t_max dt by omega)]
    unfold uval
    rw [if_neg (by omega)]

/-- Witness for C1 at m=1, c=0, k=1, Kp=0, x_target=0, t_max=1,
dt=1/2. -/
theorem C1_simulate_euler_recurrence_witness :
    (simulate_bridge 1 0 1 0 0 1 (1 / 2)).1.length = n_steps 1 (1 / 2) :=
  (C1_simulate_euler_recurrence 1 0 1 0 0 1 (1 / 2) (by norm_num)
    (by norm_num) (by norm_num) (by norm_num) (by norm_num) (by norm_num)
    (by norm_num)).1

/-- Claim C3 counterexample: with dt=2 ≥ t_max=1 (and otherwise valid
parameters) simulate_bridge does not fail: it returns a (degenerate,
empty) trajectory, so no InvalidParameter precondition failure exists
in the code. -/
theorem C3_counterexample_value_returned :
    simulate_bridge 1 0 1 0 0 1 2 = ([], [], []) := by
  have hfl : ⌊(1 : ℚ) / 2⌋ = 0 := by norm_num
  have h : n_steps 1 2 = 0 := by
    unfold n_steps
    rw [hfl]
    rfl
  simp [simulate_bridge, linspace, h]

/-- Claim C3 as amended: simulate_bridge performs no input validation;
for dt ≥ t_max > 0 it silently returns a degenerate trajectory whose
three sequences have length floor(t_max/dt) ≤ 1 instead of raising. -/
theorem C3_no_validation_degenerate (m c k Kp x_target t_max dt : ℚ)
    (ht : 0 < t_max) (hdt : t_max ≤ dt) :
    (simulate_bridge m c k Kp x_target t_max dt).1.length ≤ 1 ∧
    (simulate_bridge m c k Kp x_target t_max dt).2.1.length ≤ 1 ∧
    (simulate_bridge m c k Kp x_target t_max dt).2.2.length ≤ 1 := by
  have h := n_steps_le_one ht hdt
  refine ⟨?_, ?_, ?_⟩ <;> simpa [simulate_bridge, linspace] using h

/-- Witness for C3 (amended) at m=1, c=0, k=1, Kp=0, x_target=0,
t_max=1, dt=2. -/
theorem C3_no_validation_degenerate_witness :
    (simulate_bridge 1 0 1 0 0 1 2).1.length ≤ 1 ∧
    (simulate_bridge 1 0 1 0 0 1 2).2.1.length ≤ 1 ∧
    (simulate_bridge 1 0 1 0 0 1 2).2.2.length ≤ 1 :=
  C3_no_validation_degenerate 1 0 1 0 0 1 2 (by norm_num) (by norm_num)

/-- Claim C9: with zero gain Kp = 0 and the at-rest start, the control
input is identically zero and position and velocity stay 0 at every
index, so the response sits at the unforced equilibrium x = 0 and never
at a nonzero target. -/
theorem C9_zero_gain_stays_at_rest (m c k x_target dt : ℚ) (i : ℕ) :
    xval m c k 0 x_target dt i = 0 ∧
    vval m c k 0 x_target dt i = 0 ∧
    (∀ n, uval m c k 0 x_target dt n i = 0) ∧
    (∀ t_max, (simulate_bridge m c k 0 x_target t_max dt).2.1.getD i 0 = 0 ∧
      (simulate_bridge m c k 0 x_target t_max dt).2.2.getD i 0 = 0) ∧
    (x_target ≠ 0 → xval m c k 0 x_target dt i ≠ x_target) := by
  have hx : xval m c k 0 x_target dt i = 0 := by
    unfold xval
    rw [simState_zero_gain]
  have hv : vval m c k 0 x_target dt i = 0 := by
    unfold vval
    rw [simState_zero_gain]
  have hu : ∀ n, uval m c k 0 x_target dt n i = 0 := by
    intro n
    unfold uval
    split
    · rw [zero_mul]
    · rfl
  refine ⟨hx, hv, hu, ?_, ?_⟩
  · intro t_max
    constructor
    · rcases Nat.lt_or_ge i (n_steps t_max dt) with hlt | hge
      · rw [simulate_x_getD m c k 0 x_target t_max dt hlt]
        exact hx
      · exact getD_of_length_le (by simpa [simulate_bridge] using hge)
    · rcases Nat.lt_or_ge i (n_steps t_max dt) with hlt | hge
      · rw [simulate_u_getD m c k 0 x_target t_max dt hlt]
        exact hu _
      · exact getD_of_length_le (by simpa [simulate_bridge] using hge)
  · intro hxt
    rw [hx]
    exact fun hcontra => hxt hcontra.symm

/-- Witness for C9 at m=2, c=1, k=10, x_target=1, dt=1/100, i=3. -/
theorem C9_zero_gain_stays_at_rest_witness :
    xval 2 1 10 0 1 (1 / 100) 3 ≠ 1 :=
  (C9_zero_gain_stays_at_rest 2 1 10 1 (1 / 100) 3).2.2.2.2 (by norm_num)

/-- Claim C10: the reported time grid is t[i] = i * t_max/(n-1) with
n = floor(t_max/dt) samples, so consecutive stamps are t_max/(n-1)
apart; at the default horizon and step (t_max=15, dt=1/100) n = 1500
and the spacing 15/1499 differs from dt, and whenever (n-1)*dt differs
from t_max the stamp t[i] (i ≥ 1) is not i*dt, the physical time the
Euler recurrence advanced. -/
theorem C10_time_grid_not_dt (m c k Kp x_target t_max dt : ℚ)
    (ht : 0 < t_max) (hdt0 : 0 < dt) (hdt : dt < t_max) :
    (∀ i, i < n_steps t_max dt →
      (simulate_bridge m c k Kp x_target t_max dt).1.getD i 0 =
        (i : ℚ) * t_max / ((n_steps t_max dt : ℚ) - 1)) ∧
    (∀ i, i + 1 < n_steps t_max dt →
      (simulate_bridge m c k Kp x_target t_max dt).1.getD (i + 1) 0 -
        (simulate_bridge m c k Kp x_target t_max dt).1.getD i 0 =
        t_max / ((n_steps t_max dt : ℚ) - 1)) ∧
    (n_steps 15 (1 / 100) = 1500 ∧
      (∀ i, i < 1500 →
        (simulate_bridge m c k Kp x_target 15 (1 / 100)).1.getD i 0 =
          (i : ℚ) * (15 / 1499)) ∧
      (15 : ℚ) / 1499 ≠ 1 / 100) ∧
    (∀ i, 1 ≤ i → i < n_steps t_max dt →
      ((n_steps t_max dt : ℚ) - 1) * dt ≠ t_max →
      (simulate_bridge m c k Kp x_target t_max dt).1.getD i 0 ≠
        (i : ℚ) * dt) := by
  have hfl : ⌊(15 : ℚ) / (1 / 100)⌋ = 1500 := by norm_num
  have hn : n_steps 15 (1 / 100 : ℚ) = 1500 := by
    unfold n_steps
    rw [hfl]
    rfl
  refine ⟨?_, ?_, ⟨hn, ?_, by norm_num⟩, ?_⟩
  · intro i hi
    rw [simulate_fst]
    unfold linspace
    exact getD_map_range _ hi
  · intro i hi
    rw [simulate_fst]
    unfold linspace
    rw [getD_map_range _ hi, getD_map_range _ (show i < n_steps t_max dt by omega)]
    rw [div_sub_div_same]
    congr 1
    push_cast
    ring
  · intro i hi
    rw [simulate_fst]
    unfold linspace
    rw [hn]
    rw [getD_map_range _ hi]
    push_cast
    ring
  · intro i h1 hi hprod
    rw [simulate_fst]
    unfold linspace
    rw [getD_map_range _ hi]
    intro heq
    have hn2 : 2 ≤ n_steps t_max dt := by omega
    have hd : ((n_steps t_max dt : ℚ) - 1) ≠ 0 := by
      have h2 : (2 : ℚ) ≤ (n_steps t_max dt : ℚ) := by exact_mod_cast hn2
      linarith
    have hi0 : (i : ℚ) ≠ 0 := by
      have h1q : (1 : ℚ) ≤ (i : ℚ) := by exact_mod_cast h1
      linarith
    rw [div_eq_iff hd] at heq
    have hcancel : t_max = ((n_steps t_max dt : ℚ) - 1) * dt :=
      mul_left_cancel₀ hi0 (by linear_combination heq)
    exact hprod hcancel.symm

/-- Witness for C10: at m=1, c=0, k=1, Kp=0, x_target=0, t_max=1,
dt=1/2 the defaults conjunct gives n_steps 15 (1/100) = 1500. -/
theorem C10_time_grid_not_dt_witness : n_steps 15 (1 / 100) = 1500 :=
  (C10_time_grid_not_dt 1 0 1 0 0 1 (1 / 2) (by norm_num) (by norm_num)
    (by norm_num)).2.2.1.1

/-- Claim C2 counterexample: for x = [2, 1], t = [0, 7], target = 1,
only index 0 exceeds the 5% tolerance band, so a backward scan over the
whole trajectory including index 0 would report t[0] = 0; get_metrics
scans only indices ≥ 1, finds nothing, and returns the default
t[-1] = 7 ≠ 0. -/
theorem C2_counterexample_index_zero_skipped :
    5 / 100 * (1 : ℚ) < |List.getD [(2 : ℚ), 1] 0 0 - 1| ∧
    ¬ 5 / 100 * (1 : ℚ) < |List.getD [(2 : ℚ), 1] 1 0 - 1| ∧
    (get_metrics [2, 1] [0, 7] 1).2 = 7 ∧ (7 : ℚ) ≠ 0 := by
  refine ⟨by norm_num, by norm_num, ?_, by norm_num⟩
  show scanBack [2, 1] [0, 7] 1 (5 / 100 * 1) 1 = 7
  rw [scanBack, if_neg (by norm_num)]
  rfl

/-- Claim C2 as amended: the backward settling scan covers indices
len-1 down to 1 and never index 0; settlingTime is t[i] for the largest
index i ≥ 1 whose sample leaves the 5% band, and defaults to t[last]
when no index ≥ 1 does (even if index 0 leaves the band); when every
time stamp lies in [0, t_max] so does the result. -/
theorem C2_settling_backward_scan (x t : List ℚ) (target t_max : ℚ)
    (hlen : x.length = t.length) (hne : x ≠ [])
    (hT : ∀ a ∈ t, 0 ≤ a ∧ a ≤ t_max) :
    ((∀ i, 1 ≤ i → i < x.length →
        |x.getD i 0 - target| ≤ 5 / 100 * target) →
      (get_metrics x t target).2 = t.getLastD 0) ∧
    (∀ i, 1 ≤ i → i < x.length →
      5 / 100 * target < |x.getD i 0 - target| →
      (∀ j, i < j → j < x.length →
        |x.getD j 0 - target| ≤ 5 / 100 * target) →
      (get_metrics x t target).2 = t.getD i 0) ∧
    0 ≤ (get_metrics x t target).2 ∧
    (get_metrics x t target).2 ≤ t_max := by
  have hxlen : 1 ≤ x.length := List.length_pos.mpr hne
  have htne : t ≠ [] := by
    intro h0
    rw [h0] at hlen
    simp at hlen
    exact hne hlen
  have hsettle : (get_metrics x t target).2 =
      scanBack x t target (5 / 100 * target) (x.length - 1) := rfl
  refine ⟨?_, ?_, ?_⟩
  · intro hall
    rw [hsettle]
    exact scanBack_all_within x t target _ _
      fun i h1 hle => not_lt.mpr (hall i h1 (by omega))
  · intro i h1 hi hexc habove
    rw [hsettle]
    exact scanBack_found x t target _ _ i h1 (by omega) hexc
      fun j hj hjle => not_lt.mpr (habove j hj (by omega))
  · have hmem : scanBack x t target (5 / 100 * target) (x.length - 1) ∈ t :=
      scanBack_mem x t target _ _ htne (by omega)
    rw [hsettle]
    exact ⟨(hT _ hmem).1, (hT _ hmem).2⟩

/-- Witness for C2 (amended) at x = [2, 1], t = [0, 7], target = 1,
t_max = 7: no index ≥ 1 leaves the band, so the default t[-1] is
returned. -/
theorem C2_settling_backward_scan_witness :
    (get_metrics [(2 : ℚ), 1] [0, 7] 1).2 = List.getLastD [(0 : ℚ), 7] 0 :=
  (C2_settling_backward_scan [2, 1] [0, 7] 1 7 rfl (by simp)
      (by intro a ha; fin_cases ha <;> norm_num)).1
    (by
      intro i h1 hi
      have hi2 : i < 2 := by simpa using hi
      have hone : i = 1 := by omega
      subst hone
      show |(1 : ℚ) - 1| ≤ 5 / 100 * 1
      norm_num)

/-- Claim C4 counterexample: get_metrics called with target = 0 returns
a metrics value (here its settling component 7 on x = [2, 0],
t = [0, 7]) instead of raising: the source has no raise path, and the
numpy scalar division by zero only warns. -/
theorem C4_counterexample_value_returned :
    (get_metrics [(2 : ℚ), 0] [0, 7] 0).2 = 7 := by
  show scanBack [2, 0] [0, 7] 0 (5 / 100 * 0) 1 = 7
  rw [scanBack, if_neg (by norm_num)]
  rfl

/-- Claim C4 as amended: analyze performs no target check and raises
nothing at target = 0: it silently returns a metrics pair whose
settling time is computed against the degenerate tolerance
0.05 * 0 = 0 (an index settles only when its sample equals 0 exactly);
the overshoot division is numpy floating-point division, which yields
inf/NaN with a warning rather than an exception. -/
theorem C4_target_zero_silent (x t : List ℚ) :
    ((∀ i, 1 ≤ i → i < x.length → x.getD i 0 = 0) →
      (get_metrics x t 0).2 = t.getLastD 0) ∧
    (∀ i, 1 ≤ i → i < x.length → x.getD i 0 ≠ 0 →
      (∀ j, i < j → j < x.length → x.getD j 0 = 0) →
      (get_metrics x t 0).2 = t.getD i 0) := by
  have hsettle : (get_metrics x t 0).2 =
      scanBack x t 0 (5 / 100 * 0) (x.length - 1) := rfl
  constructor
  · intro hall
    rw [hsettle]
    apply scanBack_all_within
    intro i h1 hle
    rw [hall i h1 (by omega)]
    norm_num
  · intro i h1 hi hnz habove
    rw [hsettle]
    apply scanBack_found x t 0 _ _ i h1 (by omega)
    · rw [sub_zero]
      simpa using abs_pos.mpr hnz
    · intro j hj hjle
      rw [habove j hj (by omega)]
      norm_num

/-- Witness for C4 (amended) at x = [5, 3], t = [0, 7]: index 1 is
nonzero, so with target 0 the scan reports t[1]. -/
theorem C4_target_zero_silent_witness :
    (get_metrics [(5 : ℚ), 3] [0, 7] 0).2 = List.getD [(0 : ℚ), 7] 1 0 :=
  (C4_target_zero_silent [5, 3] [0, 7]).2 1 (by norm_num) (by norm_num)
    (by show (3 : ℚ) ≠ 0; norm_num)
    (fun j hj hj2 => by
      simp at hj2
      exact absurd hj2 (by omega))

/-- Claim C5: the classifier applies exactly the fixed thresholds and
structure of the source: overshoot > 30 gives the severe-oscillation
finding (error); otherwise settling > 10 gives the sluggish finding
(warning); cost > 500 independently gives the budget finding (warning);
with no finding fired and overshoot < 15 a success finding is added; in
particular (35, 2, 100) yields exactly one error finding and (5, 2, 50)
exactly one success finding. -/
theorem C5_classifier_thresholds :
    (holmes_feedback 35 2 100).map Finding.sev = [Severity.error] ∧
    (holmes_feedback 5 2 50).map Finding.sev = [Severity.success] ∧
    ∀ os ts cost : ℚ,
      (Finding.turbulence ∈ holmes_feedback os ts cost ↔ 30 < os) ∧
      (Finding.carStuck ∈ holmes_feedback os ts cost ↔
        ¬ 30 < os ∧ 10 < ts) ∧
      (Finding.budgetOverload ∈ holmes_feedback os ts cost ↔ 500 < cost) ∧
      (Finding.elegant ∈ holmes_feedback os ts cost ↔
        ¬ 30 < os ∧ ¬ 10 < ts ∧ ¬ 500 < cost ∧ os < 15) := by
  refine ⟨by decide, by decide, ?_⟩
  intro os ts cost
  by_cases h1 : os > 30 <;> by_cases h2 : ts > 10 <;>
    by_cases h3 : cost > 500 <;> by_cases h4 : os < 15 <;>
    simp [holmes_feedback, h1, h2, h3, h4]

/-- Claim C6 counterexample: with the negative target -1 and the
undershooting trajectory x = [-2] (max(x) = -2 never exceeds the
target), get_metrics reports overshoot 100, not 0, the clamping
argument failing for negative targets. -/
theorem C6_counterexample_negative_target :
    npMax [(-2 : ℚ)] ≤ -1 ∧ (get_metrics [(-2 : ℚ)] [0] (-1)).1 = 100 := by
  constructor
  · norm_num [npMax]
  · show max 0 ((npMax [(-2 : ℚ)] - (-1)) / (-1)) * 100 = 100
    norm_num [npMax]

/-- Claim C6 as amended: overshootPercent is
max(0, (max(x) - target)/target) * 100, always ≥ 0; a trajectory that
never exceeds the target yields 0 provided the target is positive (for
a negative target an undershooting trajectory can still report positive
overshoot). -/
theorem C6_overshoot_clamped (x t : List ℚ) (target : ℚ) :
    (get_metrics x t target).1 =
      max 0 ((npMax x - target) / target) * 100 ∧
    0 ≤ (get_metrics x t target).1 ∧
    (0 < target → npMax x ≤ target → (get_metrics x t target).1 = 0) := by
  have h1 : (get_metrics x t target).1 =
      max 0 ((npMax x - target) / target) * 100 := rfl
  refine ⟨h1, ?_, ?_⟩
  · rw [h1]
    exact mul_nonneg (le_max_left 0 _) (by norm_num)
  · intro htpos hle
    rw [h1]
    have hq : (npMax x - target) / target ≤ 0 :=
      div_nonpos_iff.mpr (Or.inr ⟨by linarith, htpos.le⟩)
    rw [max_eq_left hq]
    ring

/-- Witness for C6 (amended) at x = [1/2], t = [0], target = 1: an
undershooting trajectory with positive target reports overshoot 0. -/
theorem C6_overshoot_clamped_witness :
    (get_metrics [(1 : ℚ) / 2] [0] 1).1 = 0 :=
  (C6_overshoot_clamped [1 / 2] [0] 1).2.2 (by norm_num) (by norm_num [npMax])

/-- Claim C7: the cost estimate is the sum of |u[i]| times the fixed
tariff 0.1, is always ≥ 0, and is monotonically non-decreasing in the
magnitude of any single entry with the others held fixed. -/
theorem C7_cost_tariff_monotone (u : List ℚ) :
    u_cost u = (u.map (fun a => |a|)).sum * (1 / 10) ∧
    0 ≤ u_cost u ∧
    ∀ i v, i < u.length → |u.getD i 0| ≤ |v| →
      u_cost u ≤ u_cost (u.set i v) := by
  refine ⟨rfl, ?_, ?_⟩
  · apply mul_nonneg _ (by norm_num)
    apply List.sum_nonneg
    intro b hb
    rcases List.mem_map.mp hb with ⟨a, _, rfl⟩
    exact abs_nonneg a
  · intro i v hi hle
    unfold u_cost
    exact mul_le_mul_of_nonneg_right (absSum_set_mono u i v hi hle)
      (by norm_num)

/-- Witness for C7 at u = [1], replacing the entry by 2. -/
theorem C7_cost_tariff_monotone_witness :
    u_cost [(1 : ℚ)] ≤ u_cost (List.set [(1 : ℚ)] 0 2) :=
  (C7_cost_tariff_monotone [1]).2.2 0 2 (by norm_num) (by norm_num)

/-- Claim C8: the pass/fail report classifies each metric with exactly
one verdict under its own thresholds (overshoot < 10, settling < 5,
cost < 300 favorable, else adverse), so every call produces exactly
three verdicts split between the favorable and adverse lists. -/
theorem C8_pass_fail_three_verdicts (os ts cost : ℚ) :
    (pros_cons os ts cost).1.length + (pros_cons os ts cost).2.length = 3 ∧
    (Verdict.lowOscillation ∈ (pros_cons os ts cost).1 ↔ os < 10) ∧
    (Verdict.highRisk ∈ (pros_cons os ts cost).2 ↔ ¬ os < 10) ∧
    (Verdict.quickResponse ∈ (pros_cons os ts cost).1 ↔ ts < 5) ∧
    (Verdict.sluggishResponse ∈ (pros_cons os ts cost).2 ↔ ¬ ts < 5) ∧
    (Verdict.economic ∈ (pros_cons os ts cost).1 ↔ cost < 300) ∧
    (Verdict.expensive ∈ (pros_cons os ts cost).2 ↔ ¬ cost < 300) := by
  by_cases h1 : os < 10 <;> by_cases h2 : ts < 5 <;>
    by_cases h3 : cost < 300 <;>
    simp [pros_cons, h1, h2, h3]

end Bridge
